import Mathlib

/-!
Verification of the `kla` SigV4 request-signing engine.

A shallow embedding of `src/sigv4.rs` (the `SigV4Builder` type and its
`sign` method) together with the signing pipeline it delegates to.  The
orchestration — field validation, host / `x-amz-date` normalization,
signed-header collection, final header application — is translated from the
source.  The cryptographic pipeline (canonical request, string-to-sign,
key derivation, signature, Authorization header) lives in the external
`aws_sigv4` crate, whose sources are not part of this repository; those
parts are modelled from the specification (§4.1–§4.5) and marked as such.

Machine integers are `Nat` with explicit reduction modulo `2^32`; bytes are
`Nat` lists.  Everything is executable so the theorems' witnesses and
counterexamples evaluate on concrete requests.
-/

set_option maxRecDepth 4096

namespace Kla

/-! ## Bytes, hex, UTF-8 -/

/-- Modulus for 32-bit words. -/
def M32 : Nat := 4294967296

/-- Lowercase hex digit for `n < 16`. -/
def hexDigit (n : Nat) : Char :=
  Char.ofNat (if n < 10 then 48 + n else 87 + n)

/-- Two lowercase hex characters for a byte. -/
def byteHex (b : Nat) : List Char :=
  [hexDigit (b / 16 % 16), hexDigit (b % 16)]

/-- Lowercase hex rendering of a byte list. -/
def bytesToHex (bs : List Nat) : String :=
  ⟨bs.foldr (fun b acc => byteHex b ++ acc) []⟩

/-- UTF-8 encoding of one scalar value. -/
def utf8Char (c : Char) : List Nat :=
  let n := c.toNat
  if n < 0x80 then [n]
  else if n < 0x800 then
    [0xC0 ||| (n >>> 6), 0x80 ||| (n &&& 0x3F)]
  else if n < 0x10000 then
    [0xE0 ||| (n >>> 12), 0x80 ||| ((n >>> 6) &&& 0x3F), 0x80 ||| (n &&& 0x3F)]
  else
    [0xF0 ||| (n >>> 18), 0x80 ||| ((n >>> 12) &&& 0x3F),
     0x80 ||| ((n >>> 6) &&& 0x3F), 0x80 ||| (n &&& 0x3F)]

/-- UTF-8 bytes of a string, as `Nat`s. -/
def strBytes (s : String) : List Nat :=
  s.data.foldr (fun c acc => utf8Char c ++ acc) []

/-! ## SHA-256 over byte lists (FIPS 180-4), `Nat` arithmetic -/

/-- Right-rotation of a 32-bit word. -/
def rotr32 (n x : Nat) : Nat :=
  ((x >>> n) ||| (x <<< (32 - n))) % M32

/-- Bitwise complement of a 32-bit word. -/
def not32 (x : Nat) : Nat := (M32 - 1) - x

/-- `Ch(x,y,z)`. -/
def shaCh (x y z : Nat) : Nat :=
  Nat.xor (Nat.land x y) (Nat.land (not32 x) z)

/-- `Maj(x,y,z)`. -/
def shaMaj (x y z : Nat) : Nat :=
  Nat.xor (Nat.xor (Nat.land x y) (Nat.land x z)) (Nat.land y z)

/-- `Σ₀`. -/
def bsig0 (x : Nat) : Nat :=
  Nat.xor (Nat.xor (rotr32 2 x) (rotr32 13 x)) (rotr32 22 x)

/-- `Σ₁`. -/
def bsig1 (x : Nat) : Nat :=
  Nat.xor (Nat.xor (rotr32 6 x) (rotr32 11 x)) (rotr32 25 x)

/-- `σ₀`. -/
def ssig0 (x : Nat) : Nat :=
  Nat.xor (Nat.xor (rotr32 7 x) (rotr32 18 x)) (x >>> 3)

/-- `σ₁`. -/
def ssig1 (x : Nat) : Nat :=
  Nat.xor (Nat.xor (rotr32 17 x) (rotr32 19 x)) (x >>> 10)

/-- The 64 SHA-256 round constants. -/
def shaK : List Nat :=
  [1116352408, 1899447441, 3049323471, 3921009573, 961987163,
   1508970993, 2453635748, 2870763221, 3624381080, 310598401,
   607225278, 1426881987, 1925078388, 2162078206, 2614888103,
   3248222580, 3835390401, 4022224774, 264347078, 604807628,
   770255983, 1249150122, 1555081692, 1996064986, 2554220882,
   2821834349, 2952996808, 3210313671, 3336571891, 3584528711,
   113926993, 338241895, 666307205, 773529912, 1294757372,
   1396182291, 1695183700, 1986661051, 2177026350, 2456956037,
   2730485921, 2820302411, 3259730800, 3345764771, 3516065817,
   3600352804, 4094571909, 275423344, 430227734, 506948616,
   659060556, 883997877, 958139571, 1322822218, 1537002063,
   1747873779, 1955562222, 2024104815, 2227730452, 2361852424,
   2428436474, 2756734187, 3204031479, 3329325298]

/-- The eight SHA-256 initial hash words. -/
def shaIV : List Nat :=
  [1779033703, 3144134277, 1013904242, 2773480762,
   1359893119, 2600822924, 528734635, 1541459225]

/-- Big-endian 8-byte rendering of a 64-bit value. -/
def u64be (n : Nat) : List Nat :=
  [n >>> 56 % 256, n >>> 48 % 256, n >>> 40 % 256, n >>> 32 % 256,
   n >>> 24 % 256, n >>> 16 % 256, n >>> 8 % 256, n % 256]

/-- SHA-256 padding: `0x80`, zeros, then the 64-bit big-endian bit length. -/
def padMsg (msg : List Nat) : List Nat :=
  msg ++ [0x80] ++ List.replicate ((119 - msg.length % 64) % 64) 0
      ++ u64be (8 * msg.length)

/-- Big-endian 32-bit words of a byte list (length a multiple of 4). -/
def be32Words : List Nat → List Nat
  | a :: b :: c :: d :: rest => (((a * 256 + b) * 256 + c) * 256 + d) :: be32Words rest
  | _ => []

/-- Split a byte list into 64-byte blocks; structural recursion on a fuel
bound so the kernel can evaluate it. -/
def chunks64Go : Nat → List Nat → List (List Nat)
  | 0, _ => []
  | _, [] => []
  | fuel + 1, l => l.take 64 :: chunks64Go fuel (l.drop 64)

/-- Split a byte list into 64-byte blocks. -/
def chunks64 (l : List Nat) : List (List Nat) :=
  chunks64Go l.length l

/-- Extend the 16 message words of one block to the 64-word schedule. -/
def extendW (w0 : Array Nat) : Array Nat :=
  (List.range 48).foldl
    (fun w i =>
      let t := i + 16
      w.push ((ssig1 (w.getD (t - 2) 0) + w.getD (t - 7) 0
               + ssig0 (w.getD (t - 15) 0) + w.getD (t - 16) 0) % M32))
    w0

/-- Working state for one SHA-256 compression. -/
structure ShaState where
  a : Nat
  b : Nat
  c : Nat
  d : Nat
  e : Nat
  f : Nat
  g : Nat
  h : Nat
  deriving Repr, DecidableEq

/-- One SHA-256 round, consuming a `(Kₜ, Wₜ)` pair. -/
def shaRound (st : ShaState) (kw : Nat × Nat) : ShaState :=
  let t1 := (st.h + bsig1 st.e + shaCh st.e st.f st.g + kw.1 + kw.2) % M32
  let t2 := (bsig0 st.a + shaMaj st.a st.b st.c) % M32
  ⟨(t1 + t2) % M32, st.a, st.b, st.c, (st.d + t1) % M32, st.e, st.f, st.g⟩

/-- Compress one 64-byte block into the running 8-word hash value. -/
def compressBlock (hs : List Nat) (block : List Nat) : List Nat :=
  let w := extendW (be32Words block).toArray
  match hs with
  | [h0, h1, h2, h3, h4, h5, h6, h7] =>
    let st := (shaK.zip w.toList).foldl shaRound ⟨h0, h1, h2, h3, h4, h5, h6, h7⟩
    [(h0 + st.a) % M32, (h1 + st.b) % M32, (h2 + st.c) % M32, (h3 + st.d) % M32,
     (h4 + st.e) % M32, (h5 + st.f) % M32, (h6 + st.g) % M32, (h7 + st.h) % M32]
  | _ => hs

/-- SHA-256 digest (32 bytes) of a byte list. -/
def sha256Bytes (msg : List Nat) : List Nat :=
  let final := (chunks64 (padMsg msg)).foldl compressBlock shaIV
  final.foldr (fun w acc =>
    w >>> 24 % 256 :: w >>> 16 % 256 :: w >>> 8 % 256 :: w % 256 :: acc) []

/-- Lowercase hex SHA-256 digest of a byte list. -/
def sha256Hex (msg : List Nat) : String :=
  bytesToHex (sha256Bytes msg)

/-! ## HMAC-SHA256 (FIPS 198-1) -/

/-- HMAC-SHA256 of `msg` under `key`, both byte lists. -/
def hmacSha256 (key msg : List Nat) : List Nat :=
  let k0 := if key.length > 64 then sha256Bytes key else key
  let kp := k0 ++ List.replicate (64 - k0.length) 0
  sha256Bytes (kp.map (fun b => Nat.xor b 0x5c)
    ++ sha256Bytes (kp.map (fun b => Nat.xor b 0x36) ++ msg))

/-! ## ASCII helpers and HTTP header character rules

The `http` crate's `HeaderValue::from_str` accepts tab and any byte other
than the controls and DEL; a scalar `≥ 0x80` encodes to obs-text bytes,
all legal.  `HeaderName` accepts the RFC 7230 token characters (digits, letters, and
the token specials, codes 33, 35-39, 42, 43, 45, 46, 94-96, 124, 126),
normalizing letters to lowercase. -/

/-- ASCII lowercase of one character. -/
def lowerChar (c : Char) : Char :=
  if 65 ≤ c.toNat ∧ c.toNat ≤ 90 then Char.ofNat (c.toNat + 32) else c

/-- ASCII lowercase of a string. -/
def lowerAscii (s : String) : String := ⟨s.data.map lowerChar⟩

/-- A character legal inside an HTTP header value. -/
def validValueChar (c : Char) : Bool :=
  c.toNat == 9 || (32 ≤ c.toNat && c.toNat != 127)

/-- A string representable as an `http::HeaderValue`. -/
def validHeaderValue (s : String) : Bool := s.data.all validValueChar

/-- A character legal inside an HTTP header name (RFC 7230 token). -/
def validNameChar (c : Char) : Bool :=
  let n := c.toNat
  (48 ≤ n && n ≤ 57) || (65 ≤ n && n ≤ 90) || (97 ≤ n && n ≤ 122) ||
  n == 33 || n == 35 || n == 36 || n == 37 || n == 38 || n == 39 || n == 42 ||
  n == 43 || n == 45 || n == 46 || n == 94 || n == 95 || n == 96 ||
  n == 124 || n == 126

/-- A string parseable as an `http::HeaderName`. -/
def validHeaderName (s : String) : Bool :=
  !s.data.isEmpty && s.data.all validNameChar

/-! ## Dates -/

/-- A UTC instant at second precision — the payload of `chrono::DateTime<Utc>`
as far as signing is concerned. -/
structure DateTime where
  year : Nat
  month : Nat
  day : Nat
  hour : Nat
  minute : Nat
  second : Nat
  deriving Repr, DecidableEq

/-- The decimal digit character of `n % 10`. -/
def digitChar (n : Nat) : Char := hexDigit (n % 10)

/-- Two-digit zero-padded decimal (chrono `%m` and friends). -/
def pad2 (n : Nat) : List Char := [digitChar (n / 10), digitChar n]

/-- Four-digit zero-padded decimal (chrono `%Y` for real-world years). -/
def pad4 (n : Nat) : List Char :=
  [digitChar (n / 1000), digitChar (n / 100), digitChar (n / 10), digitChar n]

/-- chrono's rendering of the format string `"%Y%m%d%H%M%SZ"` at
src/sigv4.rs:180.  Note there is no `T` separator: the format string in the
source omits it, although the comment above it (src/sigv4.rs:174) asks for
`YYYYMMDDTHHMMSSZ`. -/
def formatAmzDate (d : DateTime) : String :=
  ⟨pad4 d.year ++ pad2 d.month ++ pad2 d.day ++
   pad2 d.hour ++ pad2 d.minute ++ pad2 d.second ++ ['Z']⟩

/-- The SigV4 timestamp format `YYYYMMDD'T'HHMMSS'Z'` (spec §4.3 step 2). -/
def formatSigV4Date (d : DateTime) : String :=
  ⟨pad4 d.year ++ pad2 d.month ++ pad2 d.day ++ ['T'] ++
   pad2 d.hour ++ pad2 d.minute ++ pad2 d.second ++ ['Z']⟩

/-- The SigV4 date stamp `YYYYMMDD`. -/
def dateStamp (d : DateTime) : String :=
  ⟨pad4 d.year ++ pad2 d.month ++ pad2 d.day⟩

/-! ## The HTTP request model

`reqwest::Request`: method, URL, header multimap, optional body.  Header
names are stored lowercase (an invariant of `http::HeaderName`).  A body
may lack a byte representation (`Body::as_bytes` returns `None` for
streams), hence the nested option. -/

/-- AWS credentials (`aws_credential_types::Credentials`): the fields the
signer reads. -/
structure Credentials where
  accessKeyId : String
  secretAccessKey : String
  sessionToken : Option String
  deriving Repr, DecidableEq

/-- The parts of `url::Url` the signer touches: the host (absent for
non-hierarchical URLs), the path, and the query pairs. -/
structure Url where
  scheme : String
  host : Option String
  path : String
  query : List (String × String)
  deriving Repr, DecidableEq

/-- `reqwest::Body`, reduced to what `as_bytes` exposes. -/
structure Body where
  asBytes : Option (List Nat)
  deriving Repr, DecidableEq

/-- `reqwest::Request`. -/
structure Request where
  method : String
  url : Url
  headers : List (String × String)
  body : Option Body
  deriving Repr, DecidableEq

/-- Drop every entry with the given (lowercase) name. -/
def hdrRemoveAll (name : String) : List (String × String) → List (String × String)
  | [] => []
  | (k, v) :: rest =>
    if k == name then hdrRemoveAll name rest else (k, v) :: hdrRemoveAll name rest

/-- `http::HeaderMap::insert`: replace the value at the first occurrence of
the name — keeping its position and dropping any extra occurrences — or
append at the end when the name is absent. -/
def hdrInsert : List (String × String) → String → String → List (String × String)
  | [], n, v => [(n, v)]
  | (k, w) :: rest, n, v =>
    if k == n then (n, v) :: hdrRemoveAll n rest else (k, w) :: hdrInsert rest n v

/-- `http::HeaderMap::contains_key` with an already-lowercase name. -/
def hdrContains (hs : List (String × String)) (name : String) : Bool :=
  hs.any (fun p => p.1 == name)

/-- `http::HeaderMap::get` keyed by a string: the key is parsed
case-insensitively as a header name — an unparseable key matches nothing —
then the first entry with that name is returned. -/
def hdrGet (hs : List (String × String)) (name : String) : Option String :=
  if validHeaderName name then
    (hs.find? (fun p => p.1 == lowerAscii name)).map Prod.snd
  else none

/-- `headers_mut().insert` on a request. -/
def Request.insertHeader (req : Request) (n v : String) : Request :=
  { req with headers := hdrInsert req.headers n v }

/-! ## The `SigV4Builder` (src/sigv4.rs:92-141) -/

/-- The error enum returned by the builder (src/sigv4.rs:23-38).  The
messages of the non-`BuildError` variants are not inspected by any claim;
the variants exist so the embedding has the same error surface.
`toStrError` models `header::ToStrError` (a header value that is not
valid UTF-8 text); since this model stores header values as strings, it
is never produced here. -/
inductive SigningError where
  | BuildError (msg : String)
  | Sigv4Error (msg : String)
  | SigvSigningError (msg : String)
  | toStrError (msg : String)
  deriving Repr, DecidableEq

/-- `SignedHeaders::default()` (src/sigv4.rs:69-73): `host` and
`x-amz-date` are pre-populated. -/
def signedHeadersDefault : List String := ["host", "x-amz-date"]

/-- `SigV4Builder` (src/sigv4.rs:92-105). -/
structure SigV4Builder where
  headers : List String
  date : Option DateTime
  region : Option String
  service : Option String
  credentials : Option Credentials
  deriving Repr, DecidableEq

/-- `SigV4Builder::new` = `default()`: the signed-header list starts as
`SignedHeaders::default()`, everything else unset. -/
def SigV4Builder.new : SigV4Builder :=
  ⟨signedHeadersDefault, none, none, none, none⟩

/-- `SigV4Builder::header` (src/sigv4.rs:114-117): `Vec::push` onto the
signed-header list. -/
def SigV4Builder.addHeader (b : SigV4Builder) (h : String) : SigV4Builder :=
  { b with headers := b.headers ++ [h] }

/-- `SigV4Builder::date` (src/sigv4.rs:120-123). -/
def SigV4Builder.setDate (b : SigV4Builder) (d : DateTime) : SigV4Builder :=
  { b with date := some d }

/-- `SigV4Builder::region` (src/sigv4.rs:126-129). -/
def SigV4Builder.setRegion (b : SigV4Builder) (r : String) : SigV4Builder :=
  { b with region := some r }

/-- `SigV4Builder::service` (src/sigv4.rs:132-135). -/
def SigV4Builder.setService (b : SigV4Builder) (s : String) : SigV4Builder :=
  { b with service := some s }

/-- `SigV4Builder::credentials` (src/sigv4.rs:138-141). -/
def SigV4Builder.setCredentials (b : SigV4Builder) (c : Credentials) : SigV4Builder :=
  { b with credentials := some c }

/-! ## The signing pipeline

Modelled from the spec: the `aws_sigv4` crate called at src/sigv4.rs:188-227
(`v4::SigningParams`, `SignableRequest::new`, `sign`) is external to this
repository; its canonicalization, string-to-sign, key derivation, signature,
and Authorization header are reproduced here from spec §4.1-§4.5. -/

/-- Uppercase hex digit for `n < 16`. -/
def hexDigitUpper (n : Nat) : Char :=
  Char.ofNat (if n < 10 then 48 + n else 55 + n)

/-- A byte in the RFC 3986 unreserved set: letters, digits, `-`, `.`,
`_`, `~`. -/
def unreservedByte (b : Nat) : Bool :=
  (48 ≤ b && b ≤ 57) || (65 ≤ b && b ≤ 90) || (97 ≤ b && b ≤ 122) ||
  b == 45 || b == 46 || b == 95 || b == 126

/-- Percent-escape of one byte, uppercase hex. -/
def pctByte (b : Nat) : List Char :=
  ['%', hexDigitUpper (b / 16 % 16), hexDigitUpper (b % 16)]

/-- Modelled from the spec: §4.1 percent-encoding — unreserved bytes kept,
everything else `%XX` with uppercase hex; `/` kept only in the path. -/
def uriEncode (keepSlash : Bool) (s : String) : String :=
  ⟨(strBytes s).foldr
    (fun b acc =>
      if unreservedByte b || (keepSlash && b == 47) then Char.ofNat b :: acc
      else pctByte b ++ acc) []⟩

/-- Byte-wise (here: scalar-wise, which agrees on ASCII) ≤ on char lists. -/
def charListLe : List Char → List Char → Bool
  | [], _ => true
  | _ :: _, [] => false
  | a :: as, b :: bs =>
    if a.toNat < b.toNat then true
    else if b.toNat < a.toNat then false
    else charListLe as bs

/-- Byte-wise string order for canonical sorting. -/
def strLe (a b : String) : Bool := charListLe a.data b.data

/-- Insert into a ≤-sorted list. -/
def insSorted (le : α → α → Bool) (x : α) : List α → List α
  | [] => [x]
  | y :: ys => if le x y then x :: y :: ys else y :: insSorted le x ys

/-- Insertion sort (stable, executable). -/
def isort (le : α → α → Bool) : List α → List α
  | [] => []
  | x :: xs => insSorted le x (isort le xs)

/-- Join strings with a separator. -/
def joinSep (sep : String) : List String → String
  | [] => ""
  | [x] => x
  | x :: y :: xs => x ++ sep ++ joinSep sep (y :: xs)

/-- Space or horizontal tab. -/
def isWsChar (c : Char) : Bool := c == ' ' || c.toNat == 9

/-- Split on whitespace runs, dropping empties; `acc` holds the current
word reversed. -/
def splitWordsGo : List Char → List Char → List String
  | acc, [] => if acc.isEmpty then [] else [⟨acc.reverse⟩]
  | acc, c :: cs =>
    if isWsChar c then
      if acc.isEmpty then splitWordsGo [] cs
      else ⟨acc.reverse⟩ :: splitWordsGo [] cs
    else splitWordsGo (c :: acc) cs

/-- Modelled from the spec: §4.1 segment 4 value normalization — trim and
collapse internal whitespace runs to single spaces. -/
def trimCollapse (s : String) : String :=
  joinSep " " (splitWordsGo [] s.data)

/-- Modelled from the spec: §4.1 segment 3 — canonical query string:
encoded pairs sorted by key then value, joined `k=v` with `&`. -/
def canonicalQueryStr (q : List (String × String)) : String :=
  let enc := q.map (fun p => (uriEncode false p.1, uriEncode false p.2))
  let sorted := isort
    (fun a b => if a.1 == b.1 then strLe a.2 b.2 else strLe a.1 b.1) enc
  joinSep "&" (sorted.map (fun p => p.1 ++ "=" ++ p.2))

/-- Modelled from the spec: §4.1 segment 4 — lowercased names, normalized
values, sorted by name, one `name:value` line each with a trailing
newline.  The signed-header pairs carry one value per listed name (they
are collected by single `get` lookups at src/sigv4.rs:198-210). -/
def canonicalHeaderLines (pairs : List (String × String)) : String :=
  let entries := pairs.map (fun p => (lowerAscii p.1, trimCollapse p.2))
  let sorted := isort (fun a b => strLe a.1 b.1) entries
  (sorted.map (fun p => p.1 ++ ":" ++ p.2 ++ "\n")).foldr (· ++ ·) ""

/-- Modelled from the spec: §4.1 segment 5 — lowercased names, sorted,
joined with `;`. -/
def signedHeadersStr (pairs : List (String × String)) : String :=
  joinSep ";" (isort strLe (pairs.map (fun p => lowerAscii p.1)))

/-- The five-segment canonical request (spec §4.1), with the hashed
payload kept as a named field so claims can speak about it. -/
structure CanonicalRequest where
  methodSeg : String
  uriSeg : String
  querySeg : String
  headersSeg : String
  signedHeadersSeg : String
  hashedPayload : String
  deriving Repr, DecidableEq

/-- Modelled from the spec: §4.1 — build the canonical request from the
method, URL, signed-header pairs, and payload bytes. -/
def mkCanonicalRequest (method : String) (url : Url)
    (pairs : List (String × String)) (payload : List Nat) : CanonicalRequest :=
  { methodSeg := ⟨method.data.map (fun c =>
      if 97 ≤ c.toNat ∧ c.toNat ≤ 122 then Char.ofNat (c.toNat - 32) else c)⟩,
    uriSeg := if url.path = "" then "/" else uriEncode true url.path,
    querySeg := canonicalQueryStr url.query,
    headersSeg := canonicalHeaderLines pairs,
    signedHeadersSeg := signedHeadersStr pairs,
    hashedPayload := sha256Hex payload }

/-- Newline-joined rendering of the canonical request. -/
def CanonicalRequest.render (cr : CanonicalRequest) : String :=
  cr.methodSeg ++ "\n" ++ cr.uriSeg ++ "\n" ++ cr.querySeg ++ "\n" ++
  cr.headersSeg ++ "\n" ++ cr.signedHeadersSeg ++ "\n" ++ cr.hashedPayload

/-- Modelled from the spec: §4.5 step 5 / glossary — the credential scope
`dateStamp/region/service/aws4_request`. -/
def credentialScope (t : DateTime) (region service : String) : String :=
  dateStamp t ++ "/" ++ region ++ "/" ++ service ++ "/aws4_request"

/-- Modelled from the spec: §4.3 — the string to sign. -/
def stringToSign (t : DateTime) (region service : String)
    (cr : CanonicalRequest) : String :=
  "AWS4-HMAC-SHA256\n" ++ formatSigV4Date t ++ "\n" ++
  credentialScope t region service ++ "\n" ++ sha256Hex (strBytes cr.render)

/-- Modelled from the spec: §4.2 — the four-step HMAC key derivation. -/
def signingKey (secret : String) (t : DateTime) (region service : String) :
    List Nat :=
  hmacSha256
    (hmacSha256
      (hmacSha256
        (hmacSha256 (strBytes ("AWS4" ++ secret)) (strBytes (dateStamp t)))
        (strBytes region))
      (strBytes service))
    (strBytes "aws4_request")

/-- Modelled from the spec: §4.4 — the final signature, lowercase hex. -/
def signatureHex (secret : String) (t : DateTime) (region service : String)
    (cr : CanonicalRequest) : String :=
  bytesToHex (hmacSha256 (signingKey secret t region service)
    (strBytes (stringToSign t region service cr)))

/-- Modelled from the spec: §4.5 step 5 — the Authorization header value. -/
def authorizationValue (accessKeyId : String) (t : DateTime)
    (region service shs sig : String) : String :=
  "AWS4-HMAC-SHA256 Credential=" ++ accessKeyId ++ "/" ++
  credentialScope t region service ++ ", SignedHeaders=" ++ shs ++
  ", Signature=" ++ sig

/-- The `SigningInstructions` coming back from `aws_sigv4::sign`: headers
to insert and query parameters to append (src/sigv4.rs:225-242). -/
structure SigningInstructions where
  headers : List (String × String)
  params : List (String × String)
  deriving Repr, DecidableEq

/-- Modelled from the spec: the external `aws_sigv4` signing step.  Its
inputs are exactly what src/sigv4.rs:212-226 passes: the method, the URL,
the collected signed-header pairs, the payload bytes, the identity, the
region, the service name — and the params time, which the source sets to
`SystemTime::now()` (src/sigv4.rs:192), NOT to the builder date.  Output
per §4.5 step 5 and §6: the Authorization header, preceded by
`x-amz-security-token` when the credentials carry a session token; no
query parameters in header-signing mode. -/
def awsSign (method : String) (url : Url) (pairs : List (String × String))
    (payload : List Nat) (creds : Credentials) (region service : String)
    (t : DateTime) : SigningInstructions :=
  let cr := mkCanonicalRequest method url pairs payload
  let auth := authorizationValue creds.accessKeyId t region service
    cr.signedHeadersSeg (signatureHex creds.secretAccessKey t region service cr)
  { headers := (match creds.sessionToken with
      | some tok => [("x-amz-security-token", tok)]
      | none => []) ++ [("authorization", auth)],
    params := [] }

/-! ## The orchestrator: `SigV4Builder::sign` (src/sigv4.rs:143-245)

The Rust method takes the request by value and returns
`Result<Request, SigningError>`; on error the partially-updated request is
dropped inside `sign`.  To let claims speak about the request content at
the moment an error (or panic) occurs, the outcome carries that state:
`error e state` is `Err(e)` with `state` the value of the local `req` at
the return point, and `panic` models an `.expect(..)` firing. -/

/-- Result of one `sign` call, with the request state at the exit point. -/
inductive SignOutcome where
  | panic
  | error (e : SigningError) (state : Request)
  | ok (result : Request)
  deriving Repr, DecidableEq

/-- Did the call succeed? -/
def SignOutcome.isOk : SignOutcome → Bool
  | .ok _ => true
  | _ => false

/-- The loop at src/sigv4.rs:198-210: look each listed header name up in
the request, in order, failing on the first name with no entry (the
`to_str` conversion is total here because header values are modelled as
text). -/
def collectHeaders (names : List String) (req : Request) :
    Except String (List (String × String)) :=
  match names with
  | [] => .ok []
  | n :: rest =>
    match hdrGet req.headers n with
    | none => .error n
    | some v =>
      match collectHeaders rest req with
      | .error m => .error m
      | .ok ps => .ok ((n, v) :: ps)

/-- The payload the source submits for signing (src/sigv4.rs:216-221):
`req.body().map(|m| m.as_bytes()).flatten().unwrap_or_default()`. -/
def payloadOf (req : Request) : List Nat :=
  ((req.body.map Body.asBytes).join).getD []

/-- The loop at src/sigv4.rs:229-235: convert each signing-instruction
header with `HeaderName::from_str(..).expect(..)` /
`HeaderValue::from_str(..).expect(..)` — a conversion failure is a panic —
and insert it (name normalized to lowercase by `HeaderName`). -/
def applyInstructions : Request → List (String × String) → Option Request
  | req, [] => some req
  | req, (n, v) :: rest =>
    if validHeaderName n && validHeaderValue v then
      applyInstructions (req.insertHeader (lowerAscii n) v) rest
    else none

/-- The loop at src/sigv4.rs:238-242: append each signing-instruction
query pair to the URL. -/
def appendQueryParams (req : Request) (ps : List (String × String)) : Request :=
  { req with url := { req.url with query := req.url.query ++ ps } }

/-- src/sigv4.rs:198-245, from the signed-header collection loop on:
`req2` is the request after the host and `x-amz-date` normalization.
The params time `now` feeds the modelled external signing step. -/
def signCollectAndApply (names : List String) (credentials : Credentials)
    (region service : String) (now : DateTime) (req2 : Request) : SignOutcome :=
  match collectHeaders names req2 with
  | .error n => .error
      (.BuildError ("missing header " ++ n ++ " which is required for signing")) req2
  | .ok pairs =>
    match applyInstructions req2 (awsSign req2.method req2.url pairs
        (payloadOf req2) credentials region service now).headers with
    | none => .panic
    | some req3 => .ok (appendQueryParams req3 (awsSign req2.method req2.url
        pairs (payloadOf req2) credentials region service now).params)

/-- src/sigv4.rs:174-245, from the `x-amz-date` insertion on: the header
value is formatted from the builder date (`date`) and written with
`HeaderValue::from_str(..).expect(..)` — the conversion check is modelled,
its failure being a panic.  `req1` is the request after host
normalization. -/
def signWithDate (names : List String) (credentials : Credentials)
    (region service : String) (date now : DateTime) (req1 : Request) :
    SignOutcome :=
  if validHeaderValue (formatAmzDate date) then
    signCollectAndApply names credentials region service now
      (req1.insertHeader "x-amz-date" (formatAmzDate date))
  else .panic

/-- `SigV4Builder::sign` (src/sigv4.rs:143-245).  `now` is the value of
`SystemTime::now()` during the call: it becomes the default date when the
builder has none (line 157) and — decisively — the `time` of the signing
params (line 192), while the `x-amz-date` header is written from the
builder date (lines 178-182).  Lines 166-172 insert a `host` header
(derived from the URL host, empty when the URL has none) when the request
lacks one, panicking if the value is not header-legal. -/
def SigV4Builder.sign (b : SigV4Builder) (now : DateTime) (req : Request) :
    SignOutcome :=
  match b.credentials with
  | none => .error
      (.BuildError "aws credentials are required when creating sigv4 request") req
  | some credentials =>
    let date := b.date.getD now
    match b.region with
    | none => .error
        (.BuildError "region is required when creating a sigv4 request") req
    | some region =>
      match b.service with
      | none => .error
          (.BuildError "service is required when creating a sigv4 request") req
      | some service =>
        if hdrContains req.headers "host" then
          signWithDate b.headers credentials region service date now req
        else if validHeaderValue ((req.url.host).getD "") then
          signWithDate b.headers credentials region service date now
            (req.insertHeader "host" ((req.url.host).getD ""))
        else .panic

/-! ## A concrete signing scenario

One `sign` call, used by several claims: the builder carries empty
region, empty service, and an empty secret key (all `Some("")`-style
values, not `None`), a fixed date, and the default sign-set; the request
has a spare `accept` header that signing must not touch.
`demoOut demoNow` / `demoOut demoNow2` are the outputs for two different
wall-clock instants around the same builder, written symbolically: the
signature subterm stays unevaluated, since no claim needs its digits —
only the scope that precedes it. -/

/-- A minimal request: GET, host `h`, one unrelated header, no body. -/
def demoReq : Request :=
  { method := "GET",
    url := { scheme := "https", host := some "h", path := "/", query := [] },
    headers := [("accept", "x")],
    body := none }

/-- Builder with empty-string region/service/secret and a fixed date. -/
def demoB : SigV4Builder :=
  (((SigV4Builder.new.setCredentials
      { accessKeyId := "AKID", secretAccessKey := "", sessionToken := none
      }).setRegion "").setService "").setDate ⟨2024, 1, 2, 3, 4, 5⟩

/-- Wall clock at the first call. -/
def demoNow : DateTime := ⟨2024, 1, 2, 3, 4, 5⟩

/-- Wall clock at the second call: one day later. -/
def demoNow2 : DateTime := ⟨2024, 1, 3, 3, 4, 5⟩

/-- The demo request after the two normalization insertions: the URL
host `h` and the builder-date `x-amz-date` value. -/
def demoReq2 : Request :=
  (demoReq.insertHeader "host" "h").insertHeader "x-amz-date"
    (formatAmzDate ⟨2024, 1, 2, 3, 4, 5⟩)

/-- The signed-header pairs the collection loop produces for the demo. -/
def demoPairs : List (String × String) :=
  [("host", "h"), ("x-amz-date", formatAmzDate ⟨2024, 1, 2, 3, 4, 5⟩)]

/-- The Authorization value the modelled pipeline produces for wall
clock `now` in the demo scenario. -/
def demoAuth (now : DateTime) : String :=
  authorizationValue "AKID" now "" "" (signedHeadersStr demoPairs)
    (signatureHex "" now "" ""
      (mkCanonicalRequest demoReq2.method demoReq2.url demoPairs
        (payloadOf demoReq2)))

/-- The signed demo request for wall clock `now`. -/
def demoOut (now : DateTime) : Request :=
  demoReq2.insertHeader (lowerAscii "authorization") (demoAuth now)

/-- The demo builder with one extra signed header the request lacks: its
`sign` call fails in the collection loop, after the host and `x-amz-date`
insertions. -/
def demoBMissing : SigV4Builder := demoB.addHeader "x-api-key"

/-- The request state at the moment `demoBMissing`-signing fails: the two
normalization insertions have already been applied. -/
def demoErrState : Request :=
  { demoReq with
    headers := [("accept", "x"), ("host", "h"),
                ("x-amz-date", "20240102030405Z")] }

/-- The demo builder with a region string containing a newline — a value a
caller can pass, but one no HTTP header value may contain. -/
def demoBNewline : SigV4Builder :=
  (((SigV4Builder.new.setCredentials
      { accessKeyId := "AKID", secretAccessKey := "", sessionToken := none
      }).setRegion "us\neast").setService "s").setDate ⟨2024, 1, 2, 3, 4, 5⟩

/-- A request whose URL has no host component (a non-hierarchical URL) and
which carries no host header. -/
def demoHostlessReq : Request :=
  { method := "GET",
    url := { scheme := "data", host := none, path := "x", query := [] },
    headers := [],
    body := none }

/-! ## Builder construction steps

Every way a caller can reach a `SigV4Builder`: start from `new` (the
`Default` instance) and apply any sequence of the five builder methods. -/

/-- One builder-method application. -/
inductive BuilderOp where
  | addHeader (h : String)
  | setDate (d : DateTime)
  | setRegion (r : String)
  | setService (s : String)
  | setCredentials (c : Credentials)

/-- Apply one builder method. -/
def BuilderOp.apply (b : SigV4Builder) : BuilderOp → SigV4Builder
  | .addHeader h => b.addHeader h
  | .setDate d => b.setDate d
  | .setRegion r => b.setRegion r
  | .setService s => b.setService s
  | .setCredentials c => b.setCredentials c

/-- The four header names `sign` may touch (spec §6, §8). -/
def allowedSignHeader (n : String) : Bool :=
  n == "host" || n == "x-amz-date" || n == "authorization" ||
  n == "x-amz-security-token"

/-- The two header names the normalization steps (before any fallible
step) may touch. -/
def allowedPreHeader (n : String) : Bool :=
  n == "host" || n == "x-amz-date"

/-! ## Header-map lemmas -/

/-- The headers outside a given name set, in order, with values. -/
def hdrOutside (allowed : String → Bool) (hs : List (String × String)) :
    List (String × String) :=
  hs.filter (fun p => !allowed p.1)

theorem hdrOutside_removeAll (allowed : String → Bool) (n : String)
    (hs : List (String × String)) (h : allowed n = true) :
    hdrOutside allowed (hdrRemoveAll n hs) = hdrOutside allowed hs := by
  induction hs with
  | nil => rfl
  | cons p rest ih =>
    obtain ⟨k, v⟩ := p
    by_cases hk : k = n
    · subst hk
      simp only [hdrRemoveAll, beq_self_eq_true, if_true, hdrOutside,
        List.filter_cons, h, Bool.not_true, Bool.false_eq_true, if_false]
      simpa [hdrOutside] using ih
    · simp only [hdrRemoveAll, beq_eq_false_iff_ne.mpr hk, Bool.false_eq_true,
        if_false, hdrOutside, List.filter_cons] at ih ⊢
      rw [ih]

theorem hdrOutside_insert (allowed : String → Bool) (hs : List (String × String))
    (n v : String) (h : allowed n = true) :
    hdrOutside allowed (hdrInsert hs n v) = hdrOutside allowed hs := by
  induction hs with
  | nil => simp [hdrInsert, hdrOutside, h]
  | cons p rest ih =>
    obtain ⟨k, w⟩ := p
    by_cases hk : k = n
    · subst hk
      simp only [hdrInsert, beq_self_eq_true, if_true, hdrOutside,
        List.filter_cons, h, Bool.not_true]
      exact hdrOutside_removeAll allowed k rest h
    · simp only [hdrInsert, beq_eq_false_iff_ne.mpr hk, Bool.false_eq_true,
        if_false, hdrOutside, List.filter_cons] at ih ⊢
      rw [ih]

theorem find?_removeAll (key n : String) (hs : List (String × String))
    (hne : key ≠ n) :
    (hdrRemoveAll n hs).find? (fun p => p.1 == key) =
      hs.find? (fun p => p.1 == key) := by
  induction hs with
  | nil => rfl
  | cons p rest ih =>
    obtain ⟨k, v⟩ := p
    by_cases hk : k = n
    · subst hk
      simp only [hdrRemoveAll, beq_self_eq_true, if_true, ih, List.find?_cons,
        beq_eq_false_iff_ne.mpr (fun h => hne h.symm)]
    · simp only [hdrRemoveAll, beq_eq_false_iff_ne.mpr hk, Bool.false_eq_true,
        if_false, List.find?_cons]
      cases hkk : (k == key) with
      | true => rfl
      | false => exact ih

theorem find?_hdrInsert_of_ne (hs : List (String × String)) (n v key : String)
    (hne : key ≠ n) :
    (hdrInsert hs n v).find? (fun p => p.1 == key) =
      hs.find? (fun p => p.1 == key) := by
  induction hs with
  | nil =>
    simp [hdrInsert, List.find?_cons, beq_eq_false_iff_ne.mpr (fun h => hne h.symm)]
  | cons p rest ih =>
    obtain ⟨k, w⟩ := p
    by_cases hk : k = n
    · subst hk
      simp only [hdrInsert, beq_self_eq_true, if_true, List.find?_cons,
        beq_eq_false_iff_ne.mpr (fun h => hne h.symm)]
      exact find?_removeAll key k rest hne
    · simp only [hdrInsert, beq_eq_false_iff_ne.mpr hk, Bool.false_eq_true,
        if_false, List.find?_cons]
      cases hkk : (k == key) with
      | true => rfl
      | false => exact ih

theorem find?_hdrInsert_self (hs : List (String × String)) (n v : String) :
    (hdrInsert hs n v).find? (fun p => p.1 == n) = some (n, v) := by
  induction hs with
  | nil => simp [hdrInsert, List.find?_cons]
  | cons p rest ih =>
    obtain ⟨k, w⟩ := p
    by_cases hk : k = n
    · subst hk
      simp [hdrInsert, List.find?_cons]
    · simp only [hdrInsert, beq_eq_false_iff_ne.mpr hk, Bool.false_eq_true,
        if_false, List.find?_cons, beq_eq_false_iff_ne.mpr hk]
      exact ih

theorem hdrGet_hdrInsert_of_ne (hs : List (String × String)) (n v m : String)
    (hne : lowerAscii m ≠ n) :
    hdrGet (hdrInsert hs n v) m = hdrGet hs m := by
  unfold hdrGet
  cases hv : validHeaderName m with
  | false => rfl
  | true => rw [find?_hdrInsert_of_ne hs n v (lowerAscii m) hne]

theorem hdrGet_hdrInsert_self (hs : List (String × String)) (n v m : String)
    (hv : validHeaderName m = true) (heq : lowerAscii m = n) :
    hdrGet (hdrInsert hs n v) m = some v := by
  unfold hdrGet
  rw [hv, if_pos rfl, heq, find?_hdrInsert_self hs n v]
  rfl

theorem hdrGet_none_name_valid (hs : List (String × String)) (m : String)
    (h : hdrGet hs m ≠ none) : validHeaderName m = true := by
  unfold hdrGet at h
  cases hv : validHeaderName m with
  | false => rw [hv] at h; simp at h
  | true => rfl

/-! ## Lemmas about the collection loop -/

theorem collectHeaders_error_of_missing (names : List String) (req : Request)
    (h : String) (hmem : h ∈ names) (hnone : hdrGet req.headers h = none) :
    ∃ n, n ∈ names ∧ hdrGet req.headers n = none ∧
      collectHeaders names req = .error n := by
  induction names with
  | nil => cases hmem
  | cons n rest ih =>
    cases hg : hdrGet req.headers n with
    | none =>
      refine ⟨n, List.mem_cons_self n rest, hg, ?_⟩
      simp [collectHeaders, hg]
    | some v =>
      have hmem' : h ∈ rest := by
        rcases List.mem_cons.mp hmem with h1 | h1
        · subst h1; rw [hg] at hnone; cases hnone
        · exact h1
      obtain ⟨n', hn'mem, hn'none, hn'eq⟩ := ih hmem'
      refine ⟨n', List.mem_cons_of_mem _ hn'mem, hn'none, ?_⟩
      simp [collectHeaders, hg, hn'eq]

theorem collectHeaders_ok_names_valid (names : List String) (req : Request)
    (pairs : List (String × String))
    (h : collectHeaders names req = .ok pairs) :
    ∀ p ∈ pairs, validHeaderName p.1 = true := by
  induction names generalizing pairs with
  | nil =>
    simp only [collectHeaders] at h
    cases h
    intro p hp; cases hp
  | cons n rest ih =>
    simp only [collectHeaders] at h
    cases hg : hdrGet req.headers n with
    | none => rw [hg] at h; cases h
    | some v =>
      rw [hg] at h
      cases hr : collectHeaders rest req with
      | error m => rw [hr] at h; cases h
      | ok ps =>
        rw [hr] at h
        cases h
        intro p hp
        rcases List.mem_cons.mp hp with h1 | h1
        · subst h1
          exact hdrGet_none_name_valid req.headers n (by rw [hg]; simp)
        · exact ih ps hr p h1

/-! ## Character-validity lemmas -/

theorem toNat_charOfNat_lt (m : Nat) (h : m < 55296) :
    (Char.ofNat m).toNat = m := by
  unfold Char.ofNat
  rw [dif_pos (Or.inl h)]
  rfl

theorem validValueChar_hexDigit (m : Nat) (h : m < 16) :
    validValueChar (hexDigit m) = true := by
  interval_cases m <;> decide

theorem validValueChar_digitChar (m : Nat) :
    validValueChar (digitChar m) = true :=
  validValueChar_hexDigit (m % 10) (Nat.lt_of_lt_of_le (Nat.mod_lt m (by omega)) (by omega))

theorem validHeaderValue_append (a b : String) :
    validHeaderValue (a ++ b) = (validHeaderValue a && validHeaderValue b) := by
  simp [validHeaderValue, String.data_append, List.all_append]

theorem validHeaderValue_formatAmzDate (d : DateTime) :
    validHeaderValue (formatAmzDate d) = true := by
  simp only [validHeaderValue, formatAmzDate, pad4, pad2, List.all_append,
    List.all_cons, List.all_nil, validValueChar_digitChar, Bool.and_true,
    Bool.true_and]
  decide

theorem validHeaderValue_dateStamp (d : DateTime) :
    validHeaderValue (dateStamp d) = true := by
  simp only [validHeaderValue, dateStamp, pad4, pad2, List.all_append,
    List.all_cons, List.all_nil, validValueChar_digitChar, Bool.and_true,
    Bool.true_and]

theorem validHeaderValue_bytesToHex (bs : List Nat) :
    validHeaderValue (bytesToHex bs) = true := by
  simp only [validHeaderValue, bytesToHex]
  induction bs with
  | nil => rfl
  | cons b rest ih =>
    rw [List.foldr_cons, List.all_append]
    have h1 : (byteHex b).all validValueChar = true := by
      simp [byteHex, validValueChar_hexDigit _ (Nat.mod_lt _ (by omega))]
    rw [h1, ih]
    rfl

theorem validValueChar_of_validNameChar (c : Char)
    (h : validNameChar c = true) : validValueChar c = true := by
  simp only [validNameChar, validValueChar, Bool.or_eq_true, Bool.and_eq_true,
    Nat.le_iff_lt_or_eq, beq_iff_eq, bne_iff_ne, decide_eq_true_eq] at h ⊢
  omega

theorem toNat_lowerChar (c : Char) :
    (lowerChar c).toNat =
      if 65 ≤ c.toNat ∧ c.toNat ≤ 90 then c.toNat + 32 else c.toNat := by
  unfold lowerChar
  by_cases h : 65 ≤ c.toNat ∧ c.toNat ≤ 90
  · rw [if_pos h, if_pos h, toNat_charOfNat_lt _ (by omega)]
  · rw [if_neg h, if_neg h]

theorem validValueChar_lowerChar_of_name (c : Char)
    (h : validNameChar c = true) : validValueChar (lowerChar c) = true := by
  have hn := toNat_lowerChar c
  simp only [validNameChar, Bool.or_eq_true, Bool.and_eq_true, beq_iff_eq,
    decide_eq_true_eq] at h
  simp only [validValueChar, Bool.or_eq_true, Bool.and_eq_true, beq_iff_eq,
    bne_iff_ne, decide_eq_true_eq]
  by_cases hu : 65 ≤ c.toNat ∧ c.toNat ≤ 90
  · rw [if_pos hu] at hn; omega
  · rw [if_neg hu] at hn; omega

theorem validHeaderValue_lowerAscii_of_name (s : String)
    (h : validHeaderName s = true) : validHeaderValue (lowerAscii s) = true := by
  simp only [validHeaderName, Bool.and_eq_true] at h
  simp only [validHeaderValue, lowerAscii, List.all_map]
  refine List.all_eq_true.mpr ?_
  intro c hc
  exact validValueChar_lowerChar_of_name c (List.all_eq_true.mp h.2 c hc)

/-! ## Sorting and joining lemmas -/

theorem mem_insSorted {α : Type} (le : α → α → Bool) (x : α) :
    ∀ (l : List α) (y : α), y ∈ insSorted le x l → y = x ∨ y ∈ l := by
  intro l
  induction l with
  | nil => intro y hy; simp [insSorted] at hy; exact Or.inl hy
  | cons z zs ih =>
    intro y hy
    unfold insSorted at hy
    by_cases hle : le x z
    · rw [if_pos hle] at hy
      rcases List.mem_cons.mp hy with h1 | h1
      · exact Or.inl h1
      · exact Or.inr h1
    · rw [if_neg hle] at hy
      rcases List.mem_cons.mp hy with h1 | h1
      · exact Or.inr (h1 ▸ List.mem_cons_self z zs)
      · rcases ih y h1 with h2 | h2
        · exact Or.inl h2
        · exact Or.inr (List.mem_cons_of_mem z h2)

theorem mem_isort {α : Type} (le : α → α → Bool) :
    ∀ (l : List α) (y : α), y ∈ isort le l → y ∈ l := by
  intro l
  induction l with
  | nil => intro y hy; simp [isort] at hy
  | cons z zs ih =>
    intro y hy
    unfold isort at hy
    rcases mem_insSorted le z (isort le zs) y hy with h1 | h1
    · exact h1 ▸ List.mem_cons_self z zs
    · exact List.mem_cons_of_mem z (ih y h1)

theorem validHeaderValue_joinSep (sep : String) (l : List String)
    (hsep : validHeaderValue sep = true)
    (h : ∀ s ∈ l, validHeaderValue s = true) :
    validHeaderValue (joinSep sep l) = true := by
  induction l with
  | nil => rfl
  | cons x xs ih =>
    cases xs with
    | nil => exact h x (List.mem_cons_self x [])
    | cons y ys =>
      simp only [joinSep, validHeaderValue_append, Bool.and_eq_true]
      refine ⟨⟨h x (List.mem_cons_self x _), hsep⟩, ?_⟩
      exact ih (fun s hs => h s (List.mem_cons_of_mem x hs))

theorem validHeaderValue_signedHeadersStr (pairs : List (String × String))
    (h : ∀ p ∈ pairs, validHeaderName p.1 = true) :
    validHeaderValue (signedHeadersStr pairs) = true := by
  unfold signedHeadersStr
  refine validHeaderValue_joinSep _ _ (by decide) ?_
  intro s hs
  have hs' := mem_isort strLe _ s hs
  obtain ⟨p, hp, hps⟩ := List.mem_map.mp hs'
  exact hps ▸ validHeaderValue_lowerAscii_of_name p.1 (h p hp)

/-! ## Request-level helper lemmas -/

theorem insertHeader_method (req : Request) (n v : String) :
    (req.insertHeader n v).method = req.method := rfl

theorem insertHeader_url (req : Request) (n v : String) :
    (req.insertHeader n v).url = req.url := rfl

theorem insertHeader_body (req : Request) (n v : String) :
    (req.insertHeader n v).body = req.body := rfl

theorem insertHeader_headers (req : Request) (n v : String) :
    (req.insertHeader n v).headers = hdrInsert req.headers n v := rfl

theorem appendQueryParams_nil (req : Request) :
    appendQueryParams req [] = req := by
  cases req with
  | mk m u hs bd => cases u; simp [appendQueryParams]

/-! ## Lemmas about the instruction-application loop -/

theorem applyInstructions_frame (allowed : String → Bool)
    (instr : List (String × String)) :
    ∀ (req r : Request),
      (∀ p ∈ instr, allowed (lowerAscii p.1) = true) →
      applyInstructions req instr = some r →
      r.method = req.method ∧ r.url = req.url ∧ r.body = req.body ∧
      hdrOutside allowed r.headers = hdrOutside allowed req.headers := by
  induction instr with
  | nil =>
    intro req r _ h
    cases h
    exact ⟨rfl, rfl, rfl, rfl⟩
  | cons p rest ih =>
    intro req r hall h
    obtain ⟨n, v⟩ := p
    unfold applyInstructions at h
    split at h
    · have step := ih (req.insertHeader (lowerAscii n) v) r
        (fun q hq => hall q (List.mem_cons_of_mem _ hq)) h
      have hn : allowed (lowerAscii n) = true := hall (n, v) (List.mem_cons_self _ _)
      refine ⟨step.1, step.2.1, step.2.2.1, ?_⟩
      rw [step.2.2.2, insertHeader_headers, hdrOutside_insert allowed _ _ _ hn]
    · cases h

theorem applyInstructions_total (instr : List (String × String)) :
    ∀ (req : Request),
      (∀ p ∈ instr, validHeaderName p.1 = true ∧ validHeaderValue p.2 = true) →
      ∃ r, applyInstructions req instr = some r := by
  induction instr with
  | nil => intro req _; exact ⟨req, rfl⟩
  | cons p rest ih =>
    intro req hall
    obtain ⟨n, v⟩ := p
    have hp := hall (n, v) (List.mem_cons_self _ _)
    obtain ⟨r, hr⟩ := ih (req.insertHeader (lowerAscii n) v)
      (fun q hq => hall q (List.mem_cons_of_mem _ hq))
    refine ⟨r, ?_⟩
    unfold applyInstructions
    rw [if_pos (by rw [hp.1, hp.2]; rfl)]
    exact hr

/-- The header names an `awsSign` instruction set can carry. -/
theorem awsSign_header_names (method : String) (url : Url)
    (pairs : List (String × String)) (payload : List Nat)
    (creds : Credentials) (region service : String) (t : DateTime) :
    ∀ p ∈ (awsSign method url pairs payload creds region service t).headers,
      p.1 = "authorization" ∨
      (p.1 = "x-amz-security-token" ∧ creds.sessionToken = some p.2) := by
  intro p hp
  unfold awsSign at hp
  cases htok : creds.sessionToken with
  | none =>
    rw [htok] at hp
    simp only [List.nil_append, List.mem_singleton] at hp
    exact Or.inl (by rw [hp])
  | some tok =>
    rw [htok] at hp
    simp only [List.cons_append, List.nil_append, List.mem_cons,
      List.not_mem_nil, or_false] at hp
    rcases hp with h1 | h1
    · subst h1; exact Or.inr ⟨rfl, rfl⟩
    · exact Or.inl (by rw [h1])

/-! ## Stage-level lemmas about `sign` -/

theorem awsSign_params_nil (method : String) (url : Url)
    (pairs : List (String × String)) (payload : List Nat)
    (creds : Credentials) (region service : String) (t : DateTime) :
    (awsSign method url pairs payload creds region service t).params = [] := rfl

theorem signCollectAndApply_ok_frame (names : List String)
    (creds : Credentials) (region service : String) (now : DateTime)
    (req2 r : Request)
    (h : signCollectAndApply names creds region service now req2 = .ok r) :
    r.method = req2.method ∧ r.url = req2.url ∧ r.body = req2.body ∧
    ∀ allowed : String → Bool, allowed "authorization" = true →
      (∀ t, creds.sessionToken = some t →
        allowed "x-amz-security-token" = true) →
      hdrOutside allowed r.headers = hdrOutside allowed req2.headers := by
  unfold signCollectAndApply at h
  split at h
  · cases h
  · rename_i pairs hpairs
    split at h
    · cases h
    · rename_i req3 happ
      cases h
      rw [awsSign_params_nil, appendQueryParams_nil]
      have base := applyInstructions_frame (fun _ => true) _ req2 req3
        (fun p _ => rfl) happ
      refine ⟨base.1, base.2.1, base.2.2.1, ?_⟩
      intro allowed hauth htok
      have hnames := awsSign_header_names req2.method req2.url pairs
        (payloadOf req2) creds region service now
      refine (applyInstructions_frame allowed _ req2 req3 ?_ happ).2.2.2
      intro p hp
      rcases hnames p hp with h1 | h1
      · rw [h1]
        have hl : lowerAscii "authorization" = "authorization" := by decide
        rw [hl]; exact hauth
      · rw [h1.1]
        have hl : lowerAscii "x-amz-security-token" = "x-amz-security-token" := by
          decide
        rw [hl]; exact htok p.2 h1.2

theorem signCollectAndApply_error_state (names : List String)
    (creds : Credentials) (region service : String) (now : DateTime)
    (req2 : Request) (e : SigningError) (st : Request)
    (h : signCollectAndApply names creds region service now req2 = .error e st) :
    st = req2 := by
  unfold signCollectAndApply at h
  split at h
  · cases h; rfl
  · split at h
    · cases h
    · cases h

theorem signWithDate_eq (names : List String) (creds : Credentials)
    (region service : String) (date now : DateTime) (req1 : Request) :
    signWithDate names creds region service date now req1 =
      signCollectAndApply names creds region service now
        (req1.insertHeader "x-amz-date" (formatAmzDate date)) := by
  unfold signWithDate
  rw [if_pos (validHeaderValue_formatAmzDate date)]

theorem sign_eq_of_fields (b : SigV4Builder) (now : DateTime) (req : Request)
    (c : Credentials) (r s : String)
    (hc : b.credentials = some c) (hr : b.region = some r)
    (hs : b.service = some s) :
    b.sign now req =
      if hdrContains req.headers "host" then
        signWithDate b.headers c r s (b.date.getD now) now req
      else if validHeaderValue ((req.url.host).getD "") then
        signWithDate b.headers c r s (b.date.getD now) now
          (req.insertHeader "host" ((req.url.host).getD ""))
      else .panic := by
  unfold SigV4Builder.sign
  rw [hc, hr, hs]

/-- Membership in an `awsSign` instruction set, with the authorization
value spelled out. -/
theorem awsSign_headers_mem (method : String) (url : Url)
    (pairs : List (String × String)) (payload : List Nat)
    (creds : Credentials) (region service : String) (t : DateTime) :
    ∀ p ∈ (awsSign method url pairs payload creds region service t).headers,
      p = ("authorization",
        authorizationValue creds.accessKeyId t region service
          (signedHeadersStr pairs)
          (signatureHex creds.secretAccessKey t region service
            (mkCanonicalRequest method url pairs payload))) ∨
      (p.1 = "x-amz-security-token" ∧ creds.sessionToken = some p.2) := by
  intro p hp
  unfold awsSign at hp
  cases htok : creds.sessionToken with
  | none =>
    rw [htok] at hp
    simp only [List.nil_append, List.mem_singleton] at hp
    exact Or.inl hp
  | some tok =>
    rw [htok] at hp
    simp only [List.cons_append, List.nil_append, List.mem_cons,
      List.not_mem_nil, or_false] at hp
    rcases hp with h1 | h1
    · subst h1; exact Or.inr ⟨rfl, rfl⟩
    · exact Or.inl h1

theorem validHeaderValue_authorizationValue (ak : String) (t : DateTime)
    (region service shs sig : String)
    (h1 : validHeaderValue ak = true) (h2 : validHeaderValue region = true)
    (h3 : validHeaderValue service = true) (h4 : validHeaderValue shs = true)
    (h5 : validHeaderValue sig = true) :
    validHeaderValue (authorizationValue ak t region service shs sig) = true := by
  unfold authorizationValue credentialScope
  simp only [validHeaderValue_append, h1, h2, h3, h4, h5,
    validHeaderValue_dateStamp, Bool.and_true, Bool.true_and]
  decide

theorem signCollectAndApply_no_panic (names : List String)
    (creds : Credentials) (region service : String) (now : DateTime)
    (req2 : Request)
    (hak : validHeaderValue creds.accessKeyId = true)
    (htk : ∀ t, creds.sessionToken = some t → validHeaderValue t = true)
    (hr : validHeaderValue region = true)
    (hs : validHeaderValue service = true) :
    signCollectAndApply names creds region service now req2 ≠ .panic := by
  unfold signCollectAndApply
  split
  · intro h; cases h
  · rename_i pairs hpairs
    have hvalid : ∀ p ∈ (awsSign req2.method req2.url pairs (payloadOf req2)
        creds region service now).headers,
        validHeaderName p.1 = true ∧ validHeaderValue p.2 = true := by
      intro p hp
      rcases awsSign_headers_mem req2.method req2.url pairs (payloadOf req2)
        creds region service now p hp with h1 | h1
      · subst h1
        constructor
        · show validHeaderName "authorization" = true
          decide
        · exact validHeaderValue_authorizationValue _ _ _ _ _ _ hak hr hs
            (validHeaderValue_signedHeadersStr pairs
              (collectHeaders_ok_names_valid names req2 pairs hpairs))
            (validHeaderValue_bytesToHex _)
      · refine ⟨by rw [h1.1]; decide, htk p.2 h1.2⟩
    obtain ⟨r, hrr⟩ := applyInstructions_total _ req2 hvalid
    rw [hrr]
    intro h; cases h

/-! ## Equation helpers for the three validation errors and the two
collection outcomes -/

theorem sign_credentials_none (b : SigV4Builder) (now : DateTime)
    (req : Request) (hc : b.credentials = none) :
    b.sign now req = .error
      (.BuildError "aws credentials are required when creating sigv4 request")
      req := by
  unfold SigV4Builder.sign
  rw [hc]

theorem sign_region_none (b : SigV4Builder) (now : DateTime) (req : Request)
    (c : Credentials) (hc : b.credentials = some c) (hr : b.region = none) :
    b.sign now req = .error
      (.BuildError "region is required when creating a sigv4 request") req := by
  unfold SigV4Builder.sign
  rw [hc, hr]

theorem sign_service_none (b : SigV4Builder) (now : DateTime) (req : Request)
    (c : Credentials) (rg : String) (hc : b.credentials = some c)
    (hr : b.region = some rg) (hs : b.service = none) :
    b.sign now req = .error
      (.BuildError "service is required when creating a sigv4 request") req := by
  unfold SigV4Builder.sign
  rw [hc, hr, hs]

theorem signCollectAndApply_eq_error (names : List String)
    (creds : Credentials) (region service : String) (now : DateTime)
    (req2 : Request) (n : String)
    (hcol : collectHeaders names req2 = .error n) :
    signCollectAndApply names creds region service now req2 =
      .error (.BuildError ("missing header " ++ n ++ " which is required for signing"))
        req2 := by
  unfold signCollectAndApply
  split
  · rename_i m heq
    rw [hcol] at heq
    cases heq
    rfl
  · rename_i pairs heq
    rw [hcol] at heq
    cases heq

theorem signCollectAndApply_eq_ok (names : List String) (creds : Credentials)
    (region service : String) (now : DateTime) (req2 : Request)
    (pairs : List (String × String)) (r3 : Request)
    (hcol : collectHeaders names req2 = .ok pairs)
    (happ : applyInstructions req2 (awsSign req2.method req2.url pairs
      (payloadOf req2) creds region service now).headers = some r3) :
    signCollectAndApply names creds region service now req2 = .ok r3 := by
  unfold signCollectAndApply
  split
  · rename_i m heq
    rw [hcol] at heq
    cases heq
  · rename_i pairs' heq
    rw [hcol] at heq
    cases heq
    split
    · rename_i heq2
      rw [happ] at heq2
      cases heq2
    · rename_i r3' heq2
      rw [happ] at heq2
      cases heq2
      rw [awsSign_params_nil, appendQueryParams_nil]

theorem builderOp_headers_superset (b : SigV4Builder) (op : BuilderOp)
    (x : String) (hx : x ∈ b.headers) : x ∈ (BuilderOp.apply b op).headers := by
  cases op with
  | addHeader h => exact List.mem_append_left _ hx
  | setDate d => exact hx
  | setRegion r => exact hx
  | setService s => exact hx
  | setCredentials c => exact hx

/-- The hex SHA-256 of the empty byte sequence. -/
theorem sha256Hex_nil :
    sha256Hex [] =
      "e3b0c44298fc1c149afbf4c8996fb92427ae41e4649b934ca495991b7852b855" := by
  decide

/-- A successful run of the collect-and-apply stage for the default
sign-set, token-free credentials, and header-legal strings, with the
output request written out: the input plus the Authorization header.  The
signature subterm in the output is never evaluated. -/
theorem signCollectAndApply_default_eq (c : Credentials) (rg sv : String)
    (now : DateTime) (req2 : Request)
    (htok : c.sessionToken = none)
    (hak : validHeaderValue c.accessKeyId = true)
    (hrv : validHeaderValue rg = true) (hsv : validHeaderValue sv = true)
    (v1 v2 : String)
    (hget1 : hdrGet req2.headers "host" = some v1)
    (hget2 : hdrGet req2.headers "x-amz-date" = some v2) :
    signCollectAndApply ["host", "x-amz-date"] c rg sv now req2 =
      .ok (req2.insertHeader (lowerAscii "authorization")
        (authorizationValue c.accessKeyId now rg sv
          (signedHeadersStr [("host", v1), ("x-amz-date", v2)])
          (signatureHex c.secretAccessKey now rg sv
            (mkCanonicalRequest req2.method req2.url
              [("host", v1), ("x-amz-date", v2)] (payloadOf req2))))) := by
  have hcol : collectHeaders ["host", "x-amz-date"] req2 =
      .ok [("host", v1), ("x-amz-date", v2)] := by
    simp [collectHeaders, hget1, hget2]
  set A := authorizationValue c.accessKeyId now rg sv
    (signedHeadersStr [("host", v1), ("x-amz-date", v2)])
    (signatureHex c.secretAccessKey now rg sv
      (mkCanonicalRequest req2.method req2.url
        [("host", v1), ("x-amz-date", v2)] (payloadOf req2))) with hA
  have hAval : validHeaderValue A = true := by
    rw [hA]
    refine validHeaderValue_authorizationValue _ _ _ _ _ _ hak hrv hsv ?_
      (validHeaderValue_bytesToHex _)
    show validHeaderValue "host;x-amz-date" = true
    decide
  have hinstr : (awsSign req2.method req2.url [("host", v1), ("x-amz-date", v2)]
      (payloadOf req2) c rg sv now).headers = [("authorization", A)] := by
    rw [hA]
    unfold awsSign
    rw [htok]
    rfl
  have happ : applyInstructions req2 [("authorization", A)] =
      some (req2.insertHeader (lowerAscii "authorization") A) := by
    unfold applyInstructions
    rw [if_pos (by rw [hAval]; decide)]
    rfl
  exact signCollectAndApply_eq_ok _ _ _ _ _ _ _ _ hcol
    (by rw [hinstr]; exact happ)

/-- Existential corollary of the previous lemma, keeping track of the
host header. -/
theorem signCollectAndApply_default_ok (c : Credentials) (rg sv : String)
    (now : DateTime) (req2 : Request)
    (htok : c.sessionToken = none)
    (hak : validHeaderValue c.accessKeyId = true)
    (hrv : validHeaderValue rg = true) (hsv : validHeaderValue sv = true)
    (v1 v2 : String)
    (hget1 : hdrGet req2.headers "host" = some v1)
    (hget2 : hdrGet req2.headers "x-amz-date" = some v2) :
    ∃ out, signCollectAndApply ["host", "x-amz-date"] c rg sv now req2 =
        .ok out ∧
      hdrGet out.headers "host" = some v1 := by
  refine ⟨_, signCollectAndApply_default_eq c rg sv now req2 htok hak hrv hsv
    v1 v2 hget1 hget2, ?_⟩
  rw [insertHeader_headers, hdrGet_hdrInsert_of_ne _ _ _ _ (by decide)]
  exact hget1

/-- The credential-scope date stamp is always eight characters. -/
theorem dateStamp_data_length (t : DateTime) :
    (dateStamp t).data.length = 8 := by
  simp [dateStamp, pad4, pad2]

/-- Authorization values built from different date stamps differ, no
matter what the signed-headers strings and (unevaluated) signatures
are. -/
theorem authorizationValue_ne (ak rg sv : String) (t1 t2 : DateTime)
    (shs1 shs2 sig1 sig2 : String)
    (hds : dateStamp t1 ≠ dateStamp t2) :
    authorizationValue ak t1 rg sv shs1 sig1 ≠
      authorizationValue ak t2 rg sv shs2 sig2 := by
  intro heq
  apply hds
  have h := congrArg String.data heq
  simp only [authorizationValue, credentialScope, String.data_append,
    List.append_assoc] at h
  have h1 := List.append_cancel_left h
  have h2 := List.append_cancel_left h1
  have h3 := List.append_cancel_left h2
  have hlen : (dateStamp t1).data.length = (dateStamp t2).data.length := by
    rw [dateStamp_data_length, dateStamp_data_length]
  exact String.ext (List.append_inj h3 hlen).1

/-- The symbolic signed output of the demo scenario: any wall clock
`now` produces the demo request with Authorization added, the builder
date — not `now` — in the `x-amz-date` header, and `now` in the
credential scope. -/
theorem demo_sign_eq (now : DateTime) :
    demoB.sign now demoReq = .ok (demoOut now) := by
  rw [sign_eq_of_fields demoB now demoReq ⟨"AKID", "", none⟩ "" "" rfl rfl rfl,
    if_neg (by decide), if_pos (by decide), signWithDate_eq]
  exact signCollectAndApply_default_eq ⟨"AKID", "", none⟩ "" "" now demoReq2
    rfl (by decide) (by decide) (by decide) "h"
    (formatAmzDate ⟨2024, 1, 2, 3, 4, 5⟩) (by decide) (by decide)

/-- The Authorization header of the demo output. -/
theorem demoOut_auth (now : DateTime) :
    hdrGet (demoOut now).headers "authorization" = some (demoAuth now) := by
  unfold demoOut
  rw [insertHeader_headers]
  exact hdrGet_hdrInsert_self _ _ _ _ (by decide) rfl

/-- The `x-amz-date` header of the demo output: the (mis)formatted
builder date. -/
theorem demoOut_date (now : DateTime) :
    hdrGet (demoOut now).headers "x-amz-date" =
      some (formatAmzDate ⟨2024, 1, 2, 3, 4, 5⟩) := by
  unfold demoOut
  rw [insertHeader_headers, hdrGet_hdrInsert_of_ne _ _ _ _ (by decide)]
  decide

/-! ## The claims -/

/-- C1: the claim asserts that for a fixed (method, path, query, sign-set,
body, credentials, region, service, builder-date) tuple, `sign` always
produces the same Authorization header.  It does not: src/sigv4.rs:192
feeds `SystemTime::now()` — not the builder date — into the signing
params, so two invocations of the same fully-fixed builder on the same
request, one day apart in wall-clock time, produce different Authorization
values (the credential scope carries the wall-clock date). -/
theorem sign_wall_clock_nondeterminism :
    demoB.date = some ⟨2024, 1, 2, 3, 4, 5⟩ ∧
    demoB.sign demoNow demoReq = .ok (demoOut demoNow) ∧
    demoB.sign demoNow2 demoReq = .ok (demoOut demoNow2) ∧
    hdrGet (demoOut demoNow).headers "authorization" ≠
      hdrGet (demoOut demoNow2).headers "authorization" := by
  refine ⟨rfl, demo_sign_eq demoNow, demo_sign_eq demoNow2, ?_⟩
  rw [demoOut_auth, demoOut_auth]
  intro h
  have h2 := Option.some.inj h
  unfold demoAuth at h2
  exact authorizationValue_ne _ _ _ _ _ _ _ _ _ (by decide) h2

/-- C2: frame property of `sign` — a successful call returns a request
with the same method, URL, and body, and every header outside
{host, x-amz-date, authorization} — plus x-amz-security-token, which is
only touched when the credentials carry a session token — is preserved
byte-for-byte, in order, none removed. -/
theorem sign_frame (b : SigV4Builder) (now : DateTime) (req r : Request)
    (hok : b.sign now req = .ok r) :
    r.method = req.method ∧ r.url = req.url ∧ r.body = req.body ∧
    ∀ allowed : String → Bool, allowed "host" = true →
      allowed "x-amz-date" = true → allowed "authorization" = true →
      (∀ c, b.credentials = some c → ∀ t, c.sessionToken = some t →
        allowed "x-amz-security-token" = true) →
      hdrOutside allowed r.headers = hdrOutside allowed req.headers := by
  cases hc : b.credentials with
  | none => rw [sign_credentials_none b now req hc] at hok; cases hok
  | some c =>
    cases hreg : b.region with
    | none => rw [sign_region_none b now req c hc hreg] at hok; cases hok
    | some rg =>
      cases hsvc : b.service with
      | none => rw [sign_service_none b now req c rg hc hreg hsvc] at hok; cases hok
      | some sv =>
        rw [sign_eq_of_fields b now req c rg sv hc hreg hsvc] at hok
        by_cases hhost : hdrContains req.headers "host" = true
        · rw [if_pos hhost, signWithDate_eq] at hok
          have fr := signCollectAndApply_ok_frame _ _ _ _ _ _ _ hok
          refine ⟨fr.1, fr.2.1, fr.2.2.1, ?_⟩
          intro allowed hH hD hA hT
          have h2 := fr.2.2.2 allowed hA (fun t ht => hT c rfl t ht)
          rw [insertHeader_headers, hdrOutside_insert allowed _ _ _ hD] at h2
          exact h2
        · rw [if_neg hhost] at hok
          by_cases hv : validHeaderValue ((req.url.host).getD "") = true
          · rw [if_pos hv, signWithDate_eq] at hok
            have fr := signCollectAndApply_ok_frame _ _ _ _ _ _ _ hok
            refine ⟨fr.1, fr.2.1, fr.2.2.1, ?_⟩
            intro allowed hH hD hA hT
            have h2 := fr.2.2.2 allowed hA (fun t ht => hT c rfl t ht)
            rw [insertHeader_headers, hdrOutside_insert allowed _ _ _ hD,
              insertHeader_headers, hdrOutside_insert allowed _ _ _ hH] at h2
            exact h2
          · rw [if_neg hv] at hok; cases hok

/-- C2 witness: the frame property evaluated on the demo scenario — the
spare `accept` header survives signing untouched. -/
theorem sign_frame_witness :
    (demoOut demoNow).method = demoReq.method ∧
    (demoOut demoNow).url = demoReq.url ∧
    (demoOut demoNow).body = demoReq.body ∧
    hdrOutside allowedSignHeader (demoOut demoNow).headers =
      hdrOutside allowedSignHeader demoReq.headers := by
  have fr := sign_frame demoB demoNow demoReq (demoOut demoNow)
    (demo_sign_eq demoNow)
  refine ⟨fr.1, fr.2.1, fr.2.2.1, ?_⟩
  refine fr.2.2.2 allowedSignHeader (by decide) (by decide) (by decide) ?_
  intro c hc t ht
  have hc' : some (⟨"AKID", "", none⟩ : Credentials) = some c := hc
  cases hc'
  exact Option.noConfusion ht

/-- C3 counterexample: the claim says an erroring `sign` leaves the
request completely unmutated because all derived values are built before
any mutation.  False: with a sign-set naming a header the request lacks,
`sign` fails in the collection loop — after the `host` and `x-amz-date`
insertions (src/sigv4.rs:166-182) have already been applied to the
request. -/
theorem sign_error_after_mutation :
    demoBMissing.sign demoNow demoReq =
      .error (.BuildError "missing header x-api-key which is required for signing")
        demoErrState ∧
    demoErrState ≠ demoReq :=
  ⟨by decide, by decide⟩

/-- C3 amended: an erroring `sign` leaves every field except the `host`
and `x-amz-date` headers untouched, and the three validation errors
(unset credentials, region, or service) fire before any mutation at all —
and since Rust `sign` consumes the request, no partially-mutated request
is ever observable by the caller on error. -/
theorem sign_error_partial_mutation (b : SigV4Builder) (now : DateTime)
    (req : Request) (e : SigningError) (st : Request)
    (h : b.sign now req = .error e st) :
    st.method = req.method ∧ st.url = req.url ∧ st.body = req.body ∧
    hdrOutside allowedPreHeader st.headers =
      hdrOutside allowedPreHeader req.headers ∧
    ((b.credentials = none ∨ b.region = none ∨ b.service = none) → st = req) := by
  cases hc : b.credentials with
  | none =>
    rw [sign_credentials_none b now req hc] at h
    cases h
    exact ⟨rfl, rfl, rfl, rfl, fun _ => rfl⟩
  | some c =>
    cases hreg : b.region with
    | none =>
      rw [sign_region_none b now req c hc hreg] at h
      cases h
      exact ⟨rfl, rfl, rfl, rfl, fun _ => rfl⟩
    | some rg =>
      cases hsvc : b.service with
      | none =>
        rw [sign_service_none b now req c rg hc hreg hsvc] at h
        cases h
        exact ⟨rfl, rfl, rfl, rfl, fun _ => rfl⟩
      | some sv =>
        rw [sign_eq_of_fields b now req c rg sv hc hreg hsvc] at h
        by_cases hhost : hdrContains req.headers "host" = true
        · rw [if_pos hhost, signWithDate_eq] at h
          have hst := signCollectAndApply_error_state _ _ _ _ _ _ _ _ h
          subst hst
          refine ⟨rfl, rfl, rfl, ?_,
            by intro hd; rcases hd with h1 | h1 | h1 <;> cases h1⟩
          rw [insertHeader_headers, hdrOutside_insert _ _ _ _ (by decide)]
        · rw [if_neg hhost] at h
          by_cases hv : validHeaderValue ((req.url.host).getD "") = true
          · rw [if_pos hv, signWithDate_eq] at h
            have hst := signCollectAndApply_error_state _ _ _ _ _ _ _ _ h
            subst hst
            refine ⟨rfl, rfl, rfl, ?_,
              by intro hd; rcases hd with h1 | h1 | h1 <;> cases h1⟩
            rw [insertHeader_headers, hdrOutside_insert _ _ _ _ (by decide),
              insertHeader_headers, hdrOutside_insert _ _ _ _ (by decide)]
          · rw [if_neg hv] at h; cases h

/-- C3 amended witness: the partial-mutation bound evaluated at the
missing-header error of the demo scenario. -/
theorem sign_error_partial_mutation_witness :
    demoErrState.method = demoReq.method ∧ demoErrState.url = demoReq.url ∧
    demoErrState.body = demoReq.body ∧
    hdrOutside allowedPreHeader demoErrState.headers =
      hdrOutside allowedPreHeader demoReq.headers ∧
    ((demoBMissing.credentials = none ∨ demoBMissing.region = none ∨
      demoBMissing.service = none) → demoErrState = demoReq) :=
  sign_error_partial_mutation demoBMissing demoNow demoReq
    (.BuildError "missing header x-api-key which is required for signing")
    demoErrState (by decide)

/-- C4: the claim (and the comment at src/sigv4.rs:174) want `x-amz-date`
in the SigV4 form with a `T` separator; the format string at
src/sigv4.rs:180 is `"%Y%m%d%H%M%SZ"`, which omits the `T` — the header
written for the builder date 2024-01-02T03:04:05Z is `20240102030405Z`,
not `20240102T030405Z`. -/
theorem sign_date_header_missing_t :
    demoB.date = some ⟨2024, 1, 2, 3, 4, 5⟩ ∧
    demoB.sign demoNow demoReq = .ok (demoOut demoNow) ∧
    hdrGet (demoOut demoNow).headers "x-amz-date" =
      some (formatAmzDate ⟨2024, 1, 2, 3, 4, 5⟩) ∧
    formatAmzDate ⟨2024, 1, 2, 3, 4, 5⟩ = "20240102030405Z" ∧
    formatSigV4Date ⟨2024, 1, 2, 3, 4, 5⟩ = "20240102T030405Z" ∧
    formatAmzDate ⟨2024, 1, 2, 3, 4, 5⟩ ≠ formatSigV4Date ⟨2024, 1, 2, 3, 4, 5⟩ :=
  ⟨rfl, demo_sign_eq demoNow, demoOut_date demoNow, by decide, by decide,
    by decide⟩

/-- C5 counterexample: the claim says an empty secret key, empty region,
or empty service is rejected with a configuration error.  False: only
*unset* (`None`) fields are rejected (src/sigv4.rs:154-163 use
`Option::ok_or`); with region = `Some("")`, service = `Some("")` and an
empty secret key the call succeeds. -/
theorem sign_empty_strings_accepted :
    demoB.region = some "" ∧ demoB.service = some "" ∧
    demoB.credentials = some (⟨"AKID", "", none⟩ : Credentials) ∧
    demoB.sign demoNow demoReq = .ok (demoOut demoNow) :=
  ⟨rfl, rfl, rfl, demo_sign_eq demoNow⟩

/-- C5 amended: an *unset* credentials, region, or service field makes
`sign` return a `BuildError` with the request state untouched; empty
strings in those fields are not rejected. -/
theorem sign_unset_field_error (b : SigV4Builder) (now : DateTime)
    (req : Request)
    (h : b.credentials = none ∨ b.region = none ∨ b.service = none) :
    ∃ m, b.sign now req = .error (.BuildError m) req := by
  cases hc : b.credentials with
  | none => exact ⟨_, sign_credentials_none b now req hc⟩
  | some c =>
    rcases h with h1 | h1 | h1
    · rw [h1] at hc; cases hc
    · exact ⟨_, sign_region_none b now req c hc h1⟩
    · cases hreg : b.region with
      | none => exact ⟨_, sign_region_none b now req c hc hreg⟩
      | some rg => exact ⟨_, sign_service_none b now req c rg hc hreg h1⟩

/-- C5 amended witness: a builder with credentials but no region errors
without mutating the request. -/
theorem sign_unset_field_error_witness :
    ∃ m, (SigV4Builder.new.setCredentials
      { accessKeyId := "A", secretAccessKey := "K", sessionToken := none
      }).sign demoNow demoReq = .error (.BuildError m) demoReq :=
  sign_unset_field_error _ demoNow demoReq (Or.inr (Or.inl rfl))

/-- C6: a header name listed in the sign-set (other than the synthesized
`host` and `x-amz-date`) with no corresponding request header makes
`sign` fail fast with a `BuildError` naming a missing sign-set header
(the first one the loop at src/sigv4.rs:198-210 fails to find). -/
theorem sign_missing_signed_header (b : SigV4Builder) (now : DateTime)
    (req : Request) (hname : String) (c : Credentials) (rg sv : String)
    (hc : b.credentials = some c) (hreg : b.region = some rg)
    (hsvc : b.service = some sv)
    (hmem : hname ∈ b.headers)
    (hnone : hdrGet req.headers hname = none)
    (hnh : lowerAscii hname ≠ "host") (hnd : lowerAscii hname ≠ "x-amz-date")
    (hhost : hdrContains req.headers "host" = true ∨
      validHeaderValue ((req.url.host).getD "") = true) :
    ∃ n st, n ∈ b.headers ∧ hdrGet st.headers n = none ∧
      b.sign now req = .error
        (.BuildError ("missing header " ++ n ++ " which is required for signing"))
        st := by
  rw [sign_eq_of_fields b now req c rg sv hc hreg hsvc]
  by_cases hcont : hdrContains req.headers "host" = true
  · rw [if_pos hcont, signWithDate_eq]
    have hnone2 : hdrGet (req.insertHeader "x-amz-date"
        (formatAmzDate (b.date.getD now))).headers hname = none := by
      rw [insertHeader_headers, hdrGet_hdrInsert_of_ne _ _ _ _ hnd]
      exact hnone
    obtain ⟨n, hnmem, hna, heq⟩ := collectHeaders_error_of_missing b.headers _
      hname hmem hnone2
    exact ⟨n, _, hnmem, hna, signCollectAndApply_eq_error _ _ _ _ _ _ _ heq⟩
  · rcases hhost with h1 | h1
    · exact absurd h1 hcont
    · rw [if_neg hcont, if_pos h1, signWithDate_eq]
      have hnone2 : hdrGet ((req.insertHeader "host"
          ((req.url.host).getD "")).insertHeader "x-amz-date"
          (formatAmzDate (b.date.getD now))).headers hname = none := by
        rw [insertHeader_headers, hdrGet_hdrInsert_of_ne _ _ _ _ hnd,
          insertHeader_headers, hdrGet_hdrInsert_of_ne _ _ _ _ hnh]
        exact hnone
      obtain ⟨n, hnmem, hna, heq⟩ := collectHeaders_error_of_missing b.headers _
        hname hmem hnone2
      exact ⟨n, _, hnmem, hna, signCollectAndApply_eq_error _ _ _ _ _ _ _ heq⟩

/-- C6 witness: the demo builder extended with `x-api-key`, which the
demo request lacks, errors with the missing-header `BuildError`. -/
theorem sign_missing_signed_header_witness :
    ∃ n st, n ∈ demoBMissing.headers ∧ hdrGet st.headers n = none ∧
      demoBMissing.sign demoNow demoReq = .error
        (.BuildError ("missing header " ++ n ++ " which is required for signing"))
        st :=
  sign_missing_signed_header demoBMissing demoNow demoReq "x-api-key"
    { accessKeyId := "AKID", secretAccessKey := "", sessionToken := none }
    "" "" rfl rfl rfl (by decide) (by decide) (by decide) (by decide)
    (Or.inr (by decide))

/-- C7: however a builder is constructed — `new` followed by any sequence
of the five builder methods — its sign-set contains `host` and
`x-amz-date`: they are pre-populated by `SignedHeaders::default()`
(src/sigv4.rs:69-73) and `header` only appends (src/sigv4.rs:114-117). -/
theorem builder_sign_set_invariant (ops : List BuilderOp) :
    "host" ∈ (ops.foldl BuilderOp.apply SigV4Builder.new).headers ∧
    "x-amz-date" ∈ (ops.foldl BuilderOp.apply SigV4Builder.new).headers := by
  have aux : ∀ (l : List BuilderOp) (b : SigV4Builder),
      "host" ∈ b.headers → "x-amz-date" ∈ b.headers →
      "host" ∈ (l.foldl BuilderOp.apply b).headers ∧
      "x-amz-date" ∈ (l.foldl BuilderOp.apply b).headers := by
    intro l
    induction l with
    | nil => intro b h1 h2; exact ⟨h1, h2⟩
    | cons op rest ih =>
      intro b h1 h2
      exact ih (BuilderOp.apply b op)
        (builderOp_headers_superset b op _ h1)
        (builderOp_headers_superset b op _ h2)
  exact aux ops SigV4Builder.new (by decide) (by decide)

/-- C8: when the request body is absent or has no byte representation,
the payload submitted for hashing is the empty byte sequence, and the
hashed-payload segment of the canonical request is the hex SHA-256 of
empty input. -/
theorem empty_body_payload_hash (req : Request)
    (h : req.body = none ∨ ∃ bd, req.body = some bd ∧ bd.asBytes = none) :
    payloadOf req = [] ∧
    sha256Hex (payloadOf req) =
      "e3b0c44298fc1c149afbf4c8996fb92427ae41e4649b934ca495991b7852b855" ∧
    ∀ (method : String) (url : Url) (pairs : List (String × String)),
      (mkCanonicalRequest method url pairs (payloadOf req)).hashedPayload =
        "e3b0c44298fc1c149afbf4c8996fb92427ae41e4649b934ca495991b7852b855" := by
  have hp : payloadOf req = [] := by
    rcases h with h1 | ⟨bd, h1, h2⟩
    · simp [payloadOf, h1]
    · simp [payloadOf, h1, h2]
  refine ⟨hp, ?_, ?_⟩
  · rw [hp]; exact sha256Hex_nil
  · intro method url pairs
    show sha256Hex (payloadOf req) = _
    rw [hp]; exact sha256Hex_nil

/-- C8 witness: the demo request has no body; its payload is empty and
hashes to the empty-input digest. -/
theorem empty_body_payload_hash_witness :
    payloadOf demoReq = [] ∧
    sha256Hex (payloadOf demoReq) =
      "e3b0c44298fc1c149afbf4c8996fb92427ae41e4649b934ca495991b7852b855" := by
  have h := empty_body_payload_hash demoReq (Or.inl rfl)
  exact ⟨h.1, h.2.1⟩

/-- C9 counterexample: the claim says `sign` never panics for any
credentials, region, and service.  False as stated: a region string
containing a newline reaches the Authorization value (the credential
scope embeds the region verbatim), `HeaderValue::from_str` rejects it,
and the `.expect("aws signature invalid")` at src/sigv4.rs:233 fires. -/
theorem sign_newline_region_panic :
    demoBNewline.region = some "us\neast" ∧
    demoBNewline.sign demoNow demoReq = .panic :=
  ⟨rfl, by decide⟩

/-- C9 amended: `sign` never panics provided the URL host (always true
for a parsed URL) and the configured region, service, access key id, and
session token contain only characters legal in an HTTP header value; the
host, `x-amz-date`, and instruction-conversion `.expect` branches are then
unreachable. -/
theorem sign_no_panic (b : SigV4Builder) (now : DateTime) (req : Request)
    (hhost : validHeaderValue ((req.url.host).getD "") = true)
    (hreg : ∀ r, b.region = some r → validHeaderValue r = true)
    (hsvc : ∀ s, b.service = some s → validHeaderValue s = true)
    (hcred : ∀ c, b.credentials = some c →
      validHeaderValue c.accessKeyId = true ∧
      ∀ t, c.sessionToken = some t → validHeaderValue t = true) :
    b.sign now req ≠ .panic := by
  cases hc : b.credentials with
  | none =>
    rw [sign_credentials_none b now req hc]
    intro h; cases h
  | some c =>
    cases hrg : b.region with
    | none =>
      rw [sign_region_none b now req c hc hrg]
      intro h; cases h
    | some rg =>
      cases hsv : b.service with
      | none =>
        rw [sign_service_none b now req c rg hc hrg hsv]
        intro h; cases h
      | some sv =>
        rw [sign_eq_of_fields b now req c rg sv hc hrg hsv]
        have hc' := hcred c hc
        by_cases hcont : hdrContains req.headers "host" = true
        · rw [if_pos hcont, signWithDate_eq]
          exact signCollectAndApply_no_panic _ _ _ _ _ _ hc'.1 hc'.2
            (hreg rg hrg) (hsvc sv hsv)
        · rw [if_neg hcont, if_pos hhost, signWithDate_eq]
          exact signCollectAndApply_no_panic _ _ _ _ _ _ hc'.1 hc'.2
            (hreg rg hrg) (hsvc sv hsv)

/-- C9 amended witness: the demo scenario satisfies the character
conditions, and its `sign` call does not panic. -/
theorem sign_no_panic_witness :
    validHeaderValue ((demoReq.url.host).getD "") = true ∧
    demoB.sign demoNow demoReq ≠ .panic := by
  refine ⟨by decide, sign_no_panic demoB demoNow demoReq (by decide) ?_ ?_ ?_⟩
  · intro r hr
    have hr' : some "" = some r := hr
    cases hr'
    decide
  · intro s hs
    have hs' : some "" = some s := hs
    cases hs'
    decide
  · intro c hc
    have hc' : some (⟨"AKID", "", none⟩ : Credentials) = some c := hc
    cases hc'
    exact ⟨by decide, fun t ht => Option.noConfusion ht⟩

/-- C10: a request lacking a host header whose URL has no host component
gets a `host` header with the empty-string value
(`url().host().map(..).unwrap_or_default()` at src/sigv4.rs:167), and —
with the default sign-set and well-formed remaining inputs — signing
proceeds to success rather than erroring. -/
theorem sign_hostless_url (b : SigV4Builder) (now : DateTime) (req : Request)
    (c : Credentials) (rg sv : String)
    (hc : b.credentials = some c) (htok : c.sessionToken = none)
    (hak : validHeaderValue c.accessKeyId = true)
    (hreg : b.region = some rg) (hrv : validHeaderValue rg = true)
    (hsvc : b.service = some sv) (hsv : validHeaderValue sv = true)
    (hhdrs : b.headers = ["host", "x-amz-date"])
    (hnohost : hdrContains req.headers "host" = false)
    (hnourl : req.url.host = none) :
    ∃ out, b.sign now req = .ok out ∧ hdrGet out.headers "host" = some "" := by
  rw [sign_eq_of_fields b now req c rg sv hc hreg hsvc, hnohost, hnourl,
    if_neg (by decide), if_pos (by decide), signWithDate_eq, hhdrs]
  refine signCollectAndApply_default_ok c rg sv now _ htok hak hrv hsv ""
    (formatAmzDate (b.date.getD now)) ?_ ?_
  · rw [insertHeader_headers, hdrGet_hdrInsert_of_ne _ _ _ _ (by decide),
      insertHeader_headers]
    exact hdrGet_hdrInsert_self _ _ _ _ (by decide) (by decide)
  · rw [insertHeader_headers]
    exact hdrGet_hdrInsert_self _ _ _ _ (by decide) (by decide)

/-- C10 witness: a fresh builder with set fields signing a hostless
`data:` URL request succeeds and carries an empty host header. -/
theorem sign_hostless_url_witness :
    ∃ out, (((SigV4Builder.new.setCredentials
        { accessKeyId := "AKID", secretAccessKey := "", sessionToken := none
        }).setRegion "r").setService "s").sign demoNow demoHostlessReq =
      .ok out ∧ hdrGet out.headers "host" = some "" :=
  sign_hostless_url _ demoNow demoHostlessReq
    { accessKeyId := "AKID", secretAccessKey := "", sessionToken := none }
    "r" "s" rfl rfl (by decide) rfl (by decide) rfl (by decide) rfl
    (by decide) rfl

end Kla
